import Mathlib

/-!
Verification of the `agenticloop` supervision scripts (`claude_loop.py`,
`maker.py`, `fixer.py`) against their natural-language specification.

The Python code is shallowly embedded: JSON values become the inductive
`PyJson`, the result of `json.loads` on a raw log line becomes `RawLine`
(empty string / parse failure / parsed value), Python exceptions become the
enumeration `PyExn`, and each fallible Python operation returns `Except PyExn`.
Python `datetime.now()` is modelled by `PyDateTime` (day index plus
time-of-day; the local timezone is modelled with a zero UTC offset and fixed
86400-second days, which is also the reading the spec uses).  Python `float`
cost arithmetic is modelled exactly over `ℚ`.  Regex searches
(`re.search` with `IGNORECASE`) are embedded as executable character-list
matchers for the three concrete patterns the code uses.  Case folding and
whitespace are modelled over the ASCII range, which covers every string any
claim touches.
-/

/-- Python exceptions that the embedded code can raise or catch. -/
inductive PyExn where
  | jsonDecodeError
  | valueError
  | keyError
  | indexError
  | attributeError
  | typeError
  | nameError
deriving DecidableEq, Repr

/-- A Python value produced by `json.loads` (floats never occur in any input
a claim mentions, so only integer numbers are modelled). -/
inductive PyJson where
  | null
  | bool (b : Bool)
  | int (n : Int)
  | str (s : String)
  | list (xs : List PyJson)
  | obj (fields : List (String × PyJson))

/-- Classification of one raw log line as the scripts see it: the empty
(falsy) string, a non-empty string on which `json.loads` raises
`JSONDecodeError`, or a non-empty string parsing to a JSON value.  Every
Python string falls in exactly one class, so quantifying over `RawLine`
quantifies over all input strings up to the parser. -/
inductive RawLine where
  | empty
  | malformed
  | parsed (data : PyJson)

/-- Python truthiness of a JSON value. -/
def pyTruthy : PyJson → Bool
  | .null => false
  | .bool b => b
  | .int n => !(n == 0)
  | .str s => !s.isEmpty
  | .list xs => !xs.isEmpty
  | .obj fs => !fs.isEmpty

/-- Python `value.get(key, default)`: only dictionaries have `.get`; any
other value raises `AttributeError`. -/
def pyGetAttr (v : PyJson) (k : String) (dflt : PyJson) : Except PyExn PyJson :=
  match v with
  | .obj fs => .ok ((fs.lookup k).getD dflt)
  | _ => .error .attributeError

/-- Python `key in value` for a string key: key test on dicts, substring
test on strings, membership on lists, `TypeError` otherwise. -/
def pyContainsKey (v : PyJson) (k : String) : Except PyExn Bool :=
  match v with
  | .obj fs => .ok (fs.any (fun p => p.1 == k))
  | .str s => .ok ((s.splitOn k).length > 1)
  | .list xs => .ok (xs.any (fun x => match x with | .str s => s == k | _ => false))
  | _ => .error .typeError

/-- Python `value[key]` for a string key: dict indexing (`KeyError` when the
key is missing), `TypeError` on every non-dict value. -/
def pySubscript (v : PyJson) (k : String) : Except PyExn PyJson :=
  match v with
  | .obj fs =>
      match fs.lookup k with
      | some w => .ok w
      | none => .error .keyError
  | _ => .error .typeError

/-- Python `intTotal += jsonValue`: `bool` is an `int` subclass in Python, so
it adds as 0/1; every other non-integer JSON value raises `TypeError`. -/
def addTok (cur : Int) (v : PyJson) : Except PyExn Int :=
  match v with
  | .int n => .ok (cur + n)
  | .bool b => .ok (cur + if b then 1 else 0)
  | _ => .error .typeError

/-- ASCII whitespace, the subset of Python `str.strip` / regex `\s`
relevant to the claims. -/
def isWs (c : Char) : Bool :=
  c == ' ' || c == '\t' || c == '\n' || c == '\r' || c == '\x0b' || c == '\x0c'

/-- ASCII decimal digit test (regex `\d`). -/
def isDigit (c : Char) : Bool := '0' ≤ c && c ≤ '9'

/-- Numeric value of an ASCII digit. -/
def digitVal (c : Char) : Nat := c.toNat - '0'.toNat

/-- Case-insensitive literal match at the head: returns the remainder of the
text after the pattern, or `none`. -/
def dropPrefixCI : List Char → List Char → Option (List Char)
  | [], s => some s
  | _ :: _, [] => none
  | p :: ps, c :: cs => if p.toLower = c.toLower then dropPrefixCI ps cs else none

/-- Case-insensitive search for a literal: remainder of the text after the
first occurrence of `pat`, or `none`. -/
def findCI (pat : List Char) : List Char → Option (List Char)
  | [] => dropPrefixCI pat []
  | c :: cs =>
      match dropPrefixCI pat (c :: cs) with
      | some r => some r
      | none => findCI pat cs

/-- Split a character list on newline characters (`.` in a Python regex does
not match a newline, so a `.*` gap never crosses one). -/
def splitOnNl : List Char → List (List Char)
  | [] => [[]]
  | c :: cs =>
      let r := splitOnNl cs
      if c = '\n' then [] :: r
      else
        match r with
        | h :: t => (c :: h) :: t
        | [] => [[c]]

/-- `startsWithList s pat`: does `s` start with `pat` (case-sensitive)? -/
def startsWithList : List Char → List Char → Bool
  | _, [] => true
  | [], _ :: _ => false
  | c :: cs, p :: ps => c = p && startsWithList cs ps

/-- Substring containment (Python `pat in s` on strings). -/
def containsSub (pat : List Char) : List Char → Bool
  | [] => startsWithList [] pat
  | c :: cs => startsWithList (c :: cs) pat || containsSub pat cs

/-- Python `str.strip()`: remove leading and trailing whitespace. -/
def stripWs (l : List Char) : List Char :=
  ((l.dropWhile isWs).reverse.dropWhile isWs).reverse

/-- Python `str.upper()` over the ASCII range. -/
def upperList (l : List Char) : List Char := l.map Char.toUpper

/-- The substring after the first `|`, i.e. `result.split("|", 1)[1]`
(meaningful only when a pipe is present, which the callers guard). -/
def afterFirstPipe : List Char → List Char
  | [] => []
  | c :: cs => if c = '|' then cs else afterFirstPipe cs

/-- Python `"|" in result`. -/
def containsPipe (l : List Char) : Bool := l.any (fun c => c = '|')

/-- All-digit run evaluated to a number (`none` when empty or when any
character is not a digit). -/
def digitsValAux : List Char → Nat → Option Nat
  | [], acc => some acc
  | c :: cs, acc => if isDigit c then digitsValAux cs (acc * 10 + digitVal c) else none

/-- Value of a non-empty all-digit character list. -/
def digitsVal : List Char → Option Nat
  | [] => none
  | l => digitsValAux l 0

/-- Python `int(string)`: strip surrounding whitespace, allow one optional
sign, then require a non-empty digit run; `none` models the `ValueError`
path (digit-group underscores are not modelled; no claim uses them). -/
def pyInt (l : List Char) : Option Int :=
  match stripWs l with
  | '+' :: rest => (digitsVal rest).map Int.ofNat
  | '-' :: rest => (digitsVal rest).map (fun n => -(Int.ofNat n))
  | rest => (digitsVal rest).map Int.ofNat

/-- Search step of `limit\s+reached`: after the literal `limit` and at least
one whitespace character, allow further whitespace and then require the
literal `reached` (existential backtracking over the `\s+` run). -/
def matchWsThen (pat : List Char) : List Char → Bool
  | [] => (dropPrefixCI pat []).isSome
  | c :: cs => (dropPrefixCI pat (c :: cs)).isSome || (isWs c && matchWsThen pat cs)

/-- Does `limit\s+reached` match starting exactly here? -/
def matchLimitReachedAt (s : List Char) : Bool :=
  match dropPrefixCI "limit".toList s with
  | none => false
  | some r =>
      match r with
      | [] => false
      | c :: cs => isWs c && matchWsThen "reached".toList cs

/-- `re.search` of `claude_loop.py`'s `RATE_LIMIT_MSG` pattern
`limit\s+reached` (IGNORECASE). -/
def searchLimitReached : List Char → Bool
  | [] => false
  | c :: cs => matchLimitReachedAt (c :: cs) || searchLimitReached cs

/-- Match of `Claude.*(?:usage|use|limit).*reach` within one newline-free
line: the three literals in order with arbitrary (non-newline) gaps.
Taking the first occurrence of each literal is complete for this
existential question. -/
def fixerLineMatch (line : List Char) : Bool :=
  match findCI "claude".toList line with
  | none => false
  | some r1 =>
      ["usage", "use", "limit"].any fun alt =>
        match findCI alt.toList r1 with
        | none => false
        | some r2 => (findCI "reach".toList r2).isSome

/-- `re.search` of `maker.py`/`fixer.py`'s `RATE_LIMIT_MSG` pattern
`Claude.*(?:usage|use|limit).*reach` (IGNORECASE); `.` does not cross a
newline, so the text is searched line by line. -/
def rateLimitMsgFixer (s : List Char) : Bool := (splitOnNl s).any fixerLineMatch

/-- `(am|pm)` at the head (IGNORECASE): `false` for am, `true` for pm. -/
def matchAmPm (s : List Char) : Option Bool :=
  match dropPrefixCI "am".toList s with
  | some _ => some false
  | none =>
      match dropPrefixCI "pm".toList s with
      | some _ => some true
      | none => none

/-- `(\d{1,2})(am|pm)` at the head, with the regex engine's greedy
preference for two digits before backtracking to one. -/
def matchHourAmPm (s : List Char) : Option (Nat × Bool) :=
  match s with
  | [] => none
  | c1 :: rest =>
      if isDigit c1 then
        match rest with
        | [] => none
        | c2 :: rest2 =>
            if isDigit c2 then
              match matchAmPm rest2 with
              | some pm => some (digitVal c1 * 10 + digitVal c2, pm)
              | none => (matchAmPm rest).map (fun pm => (digitVal c1, pm))
            else (matchAmPm rest).map (fun pm => (digitVal c1, pm))
      else none

/-- Does `resets\s+(\d{1,2})(am|pm)` match starting exactly here?  The
`\s+` run is forced to be the maximal whitespace run because a digit must
follow. -/
def matchResetAt (s : List Char) : Option (Nat × Bool) :=
  match dropPrefixCI "resets".toList s with
  | none => none
  | some r =>
      match r with
      | [] => none
      | c :: cs => if isWs c then matchHourAmPm (cs.dropWhile isWs) else none

/-- `re.search` of `RESET_TIME_PATTERN` = `resets\s+(\d{1,2})(am|pm)`
(IGNORECASE): captured hour and am/pm flag of the leftmost match. -/
def searchReset : List Char → Option (Nat × Bool)
  | [] => none
  | c :: cs =>
      match matchResetAt (c :: cs) with
      | some v => some v
      | none => searchReset cs

/-- The 24-hour conversion of `claude_loop.py` lines 107–110: `pm` adds 12
except for 12pm, and 12am becomes 0. -/
def to24 (hour : Nat) (pm : Bool) : Nat :=
  if pm && !(hour == 12) then hour + 12
  else if !pm && hour == 12 then 0
  else hour

/-- A Python naive `datetime`, modelled as a day index since the epoch plus
a time of day; the local timezone is modelled with zero UTC offset and
86400-second days. -/
structure PyDateTime where
  day : Nat
  hour : Nat
  minute : Nat
  second : Nat
  microsecond : Nat
deriving DecidableEq, Repr

/-- Total microseconds, used for `datetime` comparison. -/
def PyDateTime.toMicros (d : PyDateTime) : Nat :=
  ((((d.day * 24 + d.hour) * 60 + d.minute) * 60 + d.second)) * 1000000 + d.microsecond

/-- Python `datetime` `<=`. -/
def PyDateTime.le (a b : PyDateTime) : Bool := a.toMicros ≤ b.toMicros

/-- `int(dt.timestamp())` for a datetime with zero microseconds. -/
def PyDateTime.timestamp (d : PyDateTime) : Int :=
  Int.ofNat (((d.day * 24 + d.hour) * 60 + d.minute) * 60 + d.second)

/-- `now.replace(hour=h, minute=0, second=0, microsecond=0)`: `datetime`
validates the field and raises `ValueError` for an hour above 23 (reachable
here because the regex hour has up to two digits). -/
def replaceHour (now : PyDateTime) (h : Nat) : Except PyExn PyDateTime :=
  if h ≤ 23 then .ok ⟨now.day, h, 0, 0, 0⟩ else .error .valueError

/-- The exceptions caught by the `except` clause of `rate_limit_reset_epoch`
in all three scripts: `(json.JSONDecodeError, ValueError, IndexError)`. -/
def rlreCaught : PyExn → Bool
  | .jsonDecodeError => true
  | .valueError => true
  | .indexError => true
  | _ => false

/-- The exceptions caught by `StatsTracker.parse_usage_from_json`,
`is_done` and `is_actually_working`:
`(json.JSONDecodeError, ValueError, KeyError)`. -/
def usageCaught : PyExn → Bool
  | .jsonDecodeError => true
  | .valueError => true
  | .keyError => true
  | _ => false

/-- `StatsTracker` of `maker.py` lines 116–125 and `fixer.py` lines 119–128
(the two classes are textually identical).  `start_time` (a wall-clock
float used only for throughput display) is not modelled; no claim
touches it. -/
structure StatsTracker where
  total_input_tokens : Int
  total_output_tokens : Int
  total_cache_read_tokens : Int
  total_cache_write_tokens : Int
  iterations : Int
deriving DecidableEq, Repr

/-- The `__init__` state: all counters zero. -/
def StatsTracker.init : StatsTracker := ⟨0, 0, 0, 0, 0⟩

/-- One `total += usage.get(key, 0)` step. -/
def stepAdd (cur : Int) (container : PyJson) (k : String) : Except PyExn Int :=
  match pyGetAttr container k (.int 0) with
  | .error e => .error e
  | .ok v => addTok cur v

/-- Body of `parse_usage_from_json` after a successful `json.loads`
(maker.py lines 136–147): the five in-place additions in program order.
The returned state reflects every addition completed before an exception,
because the Python object is mutated in place; the optional `PyExn` is the
exception that escaped the body (to be filtered by the `except` clause). -/
def StatsTracker.parseUsageSteps (st : StatsTracker) (data : PyJson) :
    StatsTracker × Option PyExn :=
  match pyGetAttr data "usage" (.obj []) with
  | .error e => (st, some e)
  | .ok usage =>
  match stepAdd st.total_input_tokens usage "input_tokens" with
  | .error e => (st, some e)
  | .ok a =>
  let st1 := { st with total_input_tokens := a }
  match stepAdd st1.total_output_tokens usage "output_tokens" with
  | .error e => (st1, some e)
  | .ok b =>
  let st2 := { st1 with total_output_tokens := b }
  match stepAdd st2.total_cache_read_tokens usage "cache_read_input_tokens" with
  | .error e => (st2, some e)
  | .ok c =>
  let st3 := { st2 with total_cache_read_tokens := c }
  match pyGetAttr usage "cache_creation" (.obj []) with
  | .error e => (st3, some e)
  | .ok cc =>
  match stepAdd st3.total_cache_write_tokens cc "ephemeral_5m_input_tokens" with
  | .error e => (st3, some e)
  | .ok d =>
  let st4 := { st3 with total_cache_write_tokens := d }
  match stepAdd st4.total_cache_write_tokens cc "ephemeral_1h_input_tokens" with
  | .error e => (st4, some e)
  | .ok d2 =>
  ({ st4 with total_cache_write_tokens := d2 }, none)

/-- `StatsTracker.parse_usage_from_json` (maker.py lines 127–147, fixer.py
lines 130–150, textually identical): empty input returns at once; a
`json.loads` failure is caught by the `except` clause; exceptions from the
body propagate unless listed in the clause.  The second component is the
exception that escapes the call, `none` when it returns normally. -/
def StatsTracker.parse_usage_from_json (st : StatsTracker) (raw : RawLine) :
    StatsTracker × Option PyExn :=
  match raw with
  | .empty => (st, none)
  | .malformed => (st, none)
  | .parsed data =>
      match st.parseUsageSteps data with
      | (st2, none) => (st2, none)
      | (st2, some e) => if usageCaught e then (st2, none) else (st2, some e)

/-- Claude Sonnet 4 pricing constants of maker.py lines 23–26 / fixer.py
lines 22–25, as exact rationals. -/
def INPUT_TOKEN_COST : ℚ := 3
def OUTPUT_TOKEN_COST : ℚ := 15
def CACHE_READ_TOKEN_COST : ℚ := 3 / 10
def CACHE_WRITE_TOKEN_COST : ℚ := 15 / 4

/-- `StatsTracker.calculate_cost` (maker.py lines 149–156, fixer.py lines
152–159); Python float arithmetic is modelled exactly over `ℚ`. -/
def StatsTracker.calculate_cost (st : StatsTracker) : ℚ :=
  (st.total_input_tokens : ℚ) / 1000000 * INPUT_TOKEN_COST
    + (st.total_output_tokens : ℚ) / 1000000 * OUTPUT_TOKEN_COST
    + (st.total_cache_read_tokens : ℚ) / 1000000 * CACHE_READ_TOKEN_COST
    + (st.total_cache_write_tokens : ℚ) / 1000000 * CACHE_WRITE_TOKEN_COST

/-- The per-iteration accumulation loop of `main`
(`for line in current_iteration_lines: stats.parse_usage_from_json(line)`),
keeping the tracker state of each call. -/
def feed (st : StatsTracker) (lines : List RawLine) : StatsTracker :=
  lines.foldl (fun s l => (StatsTracker.parse_usage_from_json s l).fst) st

namespace Maker

/-- Body of maker.py `rate_limit_reset_epoch` (lines 210–222) after a
successful `json.loads`: an error record whose result matches
`RATE_LIMIT_MSG` and contains a pipe yields `int` of the substring after
the first pipe; everything else falls through to `return None`. -/
def rlreBody (data : PyJson) : Except PyExn (Option Int) :=
  match pyGetAttr data "is_error" .null with
  | .error e => .error e
  | .ok isErr =>
      if pyTruthy isErr then
        match pyContainsKey data "result" with
        | .error e => .error e
        | .ok true =>
            match pySubscript data "result" with
            | .error e => .error e
            | .ok result =>
                match result with
                | .str rs =>
                    if rateLimitMsgFixer rs.toList then
                      if containsPipe rs.toList then
                        match pyInt (afterFirstPipe rs.toList) with
                        | some n => .ok (some n)
                        | none => .error .valueError
                      else .ok none
                    else .ok none
                | _ => .error .typeError
        | .ok false => .ok none
      else .ok none

/-- maker.py `rate_limit_reset_epoch` (lines 205–223): returns the reset
epoch for a pipe-delimited rate-limit record, `None` otherwise; the
`except` clause swallows `JSONDecodeError`, `ValueError` and `IndexError`. -/
def rate_limit_reset_epoch (raw : RawLine) : Except PyExn (Option Int) :=
  match raw with
  | .empty => .ok none
  | .malformed => .ok none
  | .parsed data =>
      match rlreBody data with
      | .ok v => .ok v
      | .error e => if rlreCaught e then .ok none else .error e

/-- Body of maker.py `is_done` (lines 231–234) after `json.loads`. -/
def isDoneBody (data : PyJson) : Except PyExn Bool :=
  match pyContainsKey data "result" with
  | .error e => .error e
  | .ok true =>
      match pySubscript data "result" with
      | .error e => .error e
      | .ok (.str rs) =>
          .ok (startsWithList (upperList (stripWs rs.toList)) "DONE".toList)
      | .ok _ => .error .attributeError
  | .ok false => .ok false

/-- maker.py `is_done` (lines 226–237): the trimmed, upper-cased result
starts with the sentinel `DONE`; the `except` clause swallows
`JSONDecodeError`, `ValueError` and `KeyError`. -/
def is_done (raw : RawLine) : Except PyExn Bool :=
  match raw with
  | .empty => .ok false
  | .malformed => .ok false
  | .parsed data =>
      match isDoneBody data with
      | .ok b => .ok b
      | .error e => if usageCaught e then .ok false else .error e

/-- The fixed instruction payload of maker.py lines 32–109.  Its content is
pure configuration on which no claim depends; only its being a fixed string
distinct from every flag matters, so the literal is abbreviated here. -/
def PROMPT : String :=
  "Read @PRD.md and @README.md first. [fixed instruction payload, full text elided]"

/-- maker.py `claude_cmd` (lines 240–256): the argument list, with the
resume flag present exactly when `continue_flag` is set. -/
def claude_cmd (continue_flag : Bool) : List String :=
  ["/usr/local/bin/claude"]
    ++ (if continue_flag then ["--continue"] else [])
    ++ ["--dangerously-skip-permissions", "--verbose", "--output-format",
        "stream-json", "-p", PROMPT]

/-- The initial value of `continue_next` in `main` (maker.py line 260). -/
def initialContinueNext : Bool := false

end Maker

/-- An observable action of the post-child tail of one supervisor
iteration: the rate-limit sleep with its computed duration, or the fixed
60-second cooldown sleep. -/
inductive Ev where
  | rateSleep (secs : Int)
  | cooldownSleep
deriving DecidableEq, Repr

/-- Outcome of the post-child tail of one iteration: the sleeps executed in
order, whether the loop stops before the next spawn, and the value of
`continue_next` handed to the next iteration. -/
structure IterOutcome where
  events : List Ev
  stops : Bool
  continueNext : Bool
deriving DecidableEq, Repr

namespace Maker

/-- The tail of one `while True` iteration of maker.py `main` (lines
301–338), from the `continue_next = False` reset to the unconditional
cooldown: completion check first, then rate-limit detection with
`max(0, reset_epoch - now)` sleep and `continue_next = True`, then the
single-iteration break, then the fixed 60-second cooldown.  `prev` is the
`continue_next` value left by the previous iteration; line 301 overwrites
it with `False` before any detector runs, so the tail never reads it.  An
escaping exception aborts the loop. -/
def iterTail (_prev : Bool) (last : RawLine) (nowEpoch : Int) (single : Bool) :
    Except PyExn IterOutcome :=
  match is_done last with
  | .error e => .error e
  | .ok true => .ok ⟨[], true, false⟩
  | .ok false =>
      match rate_limit_reset_epoch last with
      | .error e => .error e
      | .ok (some e) =>
          let evs := [Ev.rateSleep (max 0 (e - nowEpoch))]
          if single then .ok ⟨evs, true, true⟩
          else .ok ⟨evs ++ [Ev.cooldownSleep], false, true⟩
      | .ok none =>
          if single then .ok ⟨[], true, false⟩
          else .ok ⟨[Ev.cooldownSleep], false, false⟩

end Maker

namespace Fixer

/-- fixer.py `rate_limit_reset_epoch` (lines 208–226), textually identical
to maker.py lines 205–223. -/
def rate_limit_reset_epoch : RawLine → Except PyExn (Option Int) :=
  Maker.rate_limit_reset_epoch

/-- Body of fixer.py `is_actually_working` (lines 234–237) after
`json.loads`: containment of the sentinel in the trimmed, upper-cased
result. -/
def isWorkingBody (data : PyJson) : Except PyExn Bool :=
  match pyContainsKey data "result" with
  | .error e => .error e
  | .ok true =>
      match pySubscript data "result" with
      | .error e => .error e
      | .ok (.str rs) =>
          .ok (containsSub "ACTUALLY_WORKING".toList (upperList (stripWs rs.toList)))
      | .ok _ => .error .attributeError
  | .ok false => .ok false

/-- fixer.py `is_actually_working` (lines 229–240). -/
def is_actually_working (raw : RawLine) : Except PyExn Bool :=
  match raw with
  | .empty => .ok false
  | .malformed => .ok false
  | .parsed data =>
      match isWorkingBody data with
      | .ok b => .ok b
      | .error e => if usageCaught e then .ok false else .error e

/-- The tail of one iteration of fixer.py `main` (lines 303–340), same
shape as maker.py with `is_actually_working` as the completion test. -/
def iterTail (_prev : Bool) (last : RawLine) (nowEpoch : Int) (single : Bool) :
    Except PyExn IterOutcome :=
  match is_actually_working last with
  | .error e => .error e
  | .ok true => .ok ⟨[], true, false⟩
  | .ok false =>
      match rate_limit_reset_epoch last with
      | .error e => .error e
      | .ok (some e) =>
          let evs := [Ev.rateSleep (max 0 (e - nowEpoch))]
          if single then .ok ⟨evs, true, true⟩
          else .ok ⟨evs ++ [Ev.cooldownSleep], false, true⟩
      | .ok none =>
          if single then .ok ⟨[], true, false⟩
          else .ok ⟨[Ev.cooldownSleep], false, false⟩

end Fixer

/-- Index of the last space character of a list, if any. -/
def lastSpaceIdx? : List Char → Option Nat
  | [] => none
  | c :: cs =>
      match lastSpaceIdx? cs with
      | some i => some (i + 1)
      | none => if c = ' ' then some 0 else none

/-- Python `truncated.rfind(' ')`: index of the last space, `-1` when there
is none. -/
def rfindSpace (l : List Char) : Int :=
  match lastSpaceIdx? l with
  | some i => (i : Int)
  | none => -1

namespace ClaudeLoop

/-- The clock-time branch of claude_loop.py `rate_limit_reset_epoch`
(lines 103–120 and 136–153): convert the captured hour to 24-hour form,
build today's timestamp at that hour, and, when that moment is not
strictly in the future, execute `reset_today += timedelta(days=1)`.
claude_loop.py imports only `datetime` from the `datetime` module (line
15), so the name `timedelta` is unbound there and that statement raises
`NameError`. -/
def clockReset (h : Nat) (pm : Bool) (now : PyDateTime) : Except PyExn (Option Int) :=
  let hour := to24 h pm
  match replaceHour now hour with
  | .error e => .error e
  | .ok reset_today =>
      if reset_today.le now then .error .nameError
      else .ok (some reset_today.timestamp)

/-- The `for item in content` loop of claude_loop.py lines 130–153: the
first text item matching `RATE_LIMIT_MSG` with a `resets <H>am/pm` capture
decides the result; other items are skipped; non-dict items raise
`AttributeError` at `item.get`. -/
def contentLoop (now : PyDateTime) : List PyJson → Except PyExn (Option Int)
  | [] => .ok none
  | item :: rest =>
      match pyGetAttr item "type" .null with
      | .error e => .error e
      | .ok ty =>
          match ty with
          | .str tys =>
              if tys == "text" then
                match pyGetAttr item "text" (.str "") with
                | .error e => .error e
                | .ok (.str t) =>
                    if searchLimitReached t.toList then
                      match searchReset t.toList with
                      | some (h, pm) => clockReset h pm now
                      | none => contentLoop now rest
                    else contentLoop now rest
                | .ok _ => .error .typeError
              else contentLoop now rest
          | _ => contentLoop now rest

/-- Python iteration over the `content` value (claude_loop.py line 130):
lists iterate their items; iterating a string yields its characters, each
a string on which `item.get` raises `AttributeError`; iterating a dict
yields its keys with the same effect; other values raise `TypeError`. -/
def contentIter (content : PyJson) (now : PyDateTime) : Except PyExn (Option Int) :=
  match content with
  | .list items => contentLoop now items
  | .str s => if s.isEmpty then .ok none else .error .attributeError
  | .obj fs => if fs.isEmpty then .ok none else .error .attributeError
  | _ => .error .typeError

/-- Body of claude_loop.py `rate_limit_reset_epoch` (lines 95–153) after a
successful `json.loads`: the error-record branch tries the clock pattern
first and falls back to the pipe-delimited epoch; the assistant branch
scans the message content for a matching text item. -/
def rlreBody (data : PyJson) (now : PyDateTime) : Except PyExn (Option Int) :=
  match pyGetAttr data "is_error" .null with
  | .error e => .error e
  | .ok isErr =>
      if pyTruthy isErr then
        match pyContainsKey data "result" with
        | .error e => .error e
        | .ok true =>
            match pySubscript data "result" with
            | .error e => .error e
            | .ok (.str rs) =>
                if searchLimitReached rs.toList then
                  match searchReset rs.toList with
                  | some (h, pm) => clockReset h pm now
                  | none =>
                      if containsPipe rs.toList then
                        match pyInt (stripWs (afterFirstPipe rs.toList)) with
                        | some n => .ok (some n)
                        | none => .error .valueError
                      else .ok none
                else .ok none
            | .ok _ => .error .typeError
        | .ok false => .ok none
      else
        match pyGetAttr data "type" .null with
        | .error e => .error e
        | .ok (.str tys) =>
            if tys == "assistant" then
              match pyGetAttr data "message" (.obj []) with
              | .error e => .error e
              | .ok msg =>
                  match pyGetAttr msg "content" (.list []) with
                  | .error e => .error e
                  | .ok content => contentIter content now
            else .ok none
        | .ok _ => .ok none

/-- claude_loop.py `rate_limit_reset_epoch` (lines 88–158), evaluated at
the current local time `now` (with `nowEpoch = now.timestamp()`); the
`except` clause swallows `JSONDecodeError`, `ValueError` and `IndexError`,
and any other exception — in particular the `NameError` of the
advance-one-day path — escapes. -/
def rate_limit_reset_epoch (raw : RawLine) (now : PyDateTime) : Except PyExn (Option Int) :=
  match raw with
  | .empty => .ok none
  | .malformed => .ok none
  | .parsed data =>
      match rlreBody data now with
      | .ok v => .ok v
      | .error e => if rlreCaught e then .ok none else .error e

/-- The smart truncation of claude_loop.py lines 202–208 (and its textual
duplicate at lines 244–250): text over 120 characters is cut to the
120-character window, preferring the last space of the window when its
index exceeds 100, and an ellipsis is appended. -/
def smart_truncate (text : List Char) : List Char :=
  if 120 < text.length then
    let truncated := text.take 120
    let last_space := rfindSpace truncated
    if 100 < last_space then truncated.take last_space.toNat ++ "...".toList
    else truncated ++ "...".toList
  else text

/-- The tail of one iteration of claude_loop.py `main` (lines 337–355):
no completion check and no single-iteration mode; a detected reset epoch
sets `continue_next` and sleeps `max(0, reset_epoch - now)`, and the fixed
60-second cooldown always follows. -/
def iterTail (_prev : Bool) (last : RawLine) (nowEpoch : Int) (now : PyDateTime) :
    Except PyExn IterOutcome :=
  match rate_limit_reset_epoch last now with
  | .error e => .error e
  | .ok (some e) => .ok ⟨[Ev.rateSleep (max 0 (e - nowEpoch)), Ev.cooldownSleep], false, true⟩
  | .ok none => .ok ⟨[Ev.cooldownSleep], false, false⟩

end ClaudeLoop

/-- Is the key absent, or bound to an integer? -/
def intOrAbsent (u : List (String × PyJson)) (k : String) : Bool :=
  match u.lookup k with
  | none => true
  | some (.int _) => true
  | some _ => false

/-- A usage object whose token fields are integers (or absent) and whose
`cache_creation`, when present, is an object with integer (or absent)
ephemeral token fields. -/
def goodUsageObj (u : List (String × PyJson)) : Bool :=
  intOrAbsent u "input_tokens" && intOrAbsent u "output_tokens"
    && intOrAbsent u "cache_read_input_tokens"
    && (match u.lookup "cache_creation" with
        | none => true
        | some (.obj cc) =>
            intOrAbsent cc "ephemeral_5m_input_tokens"
              && intOrAbsent cc "ephemeral_1h_input_tokens"
        | some _ => false)

/-- A line parsing to a JSON object whose usage sub-object (when present)
maps the token fields to integers — the record shape claims C2 and C6
quantify over. -/
def goodRecord : RawLine → Bool
  | .parsed (.obj fields) =>
      match fields.lookup "usage" with
      | none => true
      | some (.obj u) => goodUsageObj u
      | some _ => false
  | _ => false

/-- An input line on which `parse_usage_from_json` returns normally: the
empty line, a `json.loads` failure, or a well-shaped usage record. -/
def usageWellBehaved : RawLine → Bool
  | .empty => true
  | .malformed => true
  | r => goodRecord r

/-- The usage object of a record (empty for the default `{}` paths). -/
def usageOf : RawLine → List (String × PyJson)
  | .parsed (.obj fields) =>
      (match fields.lookup "usage" with
       | some (.obj u) => u
       | _ => [])
  | _ => []

/-- The `cache_creation` object of a record (empty for the default paths). -/
def ccOf (r : RawLine) : List (String × PyJson) :=
  match (usageOf r).lookup "cache_creation" with
  | some (.obj cc) => cc
  | _ => []

/-- Integer value at a key, defaulting to 0 (the `usage.get(k, 0)` read for
well-shaped records). -/
def intAt (u : List (String × PyJson)) (k : String) : Int :=
  match u.lookup k with
  | some (.int n) => n
  | _ => 0

/-- Input tokens contributed by a well-shaped record. -/
def recIn (r : RawLine) : Int := intAt (usageOf r) "input_tokens"

/-- Output tokens contributed by a well-shaped record. -/
def recOut (r : RawLine) : Int := intAt (usageOf r) "output_tokens"

/-- Cache-read tokens contributed by a well-shaped record. -/
def recCR (r : RawLine) : Int := intAt (usageOf r) "cache_read_input_tokens"

/-- Cache-write tokens contributed by a well-shaped record: the sum of the
5-minute and 1-hour ephemeral cache-creation fields. -/
def recCW (r : RawLine) : Int :=
  intAt (ccOf r) "ephemeral_5m_input_tokens" + intAt (ccOf r) "ephemeral_1h_input_tokens"

/-- Is the key bound to a non-negative value whenever it is bound to an
integer at all? -/
def fieldNonNeg (u : List (String × PyJson)) (k : String) : Bool :=
  match u.lookup k with
  | some (.int n) => 0 ≤ n
  | _ => true

/-- Every token field that is present as an integer is non-negative — the
hypothesis under which the running totals cannot decrease. -/
def nonNegTokens : RawLine → Bool
  | .parsed (.obj fields) =>
      (match fields.lookup "usage" with
       | some (.obj u) =>
           fieldNonNeg u "input_tokens" && fieldNonNeg u "output_tokens"
             && fieldNonNeg u "cache_read_input_tokens"
             && (match u.lookup "cache_creation" with
                 | some (.obj cc) =>
                     fieldNonNeg cc "ephemeral_5m_input_tokens"
                       && fieldNonNeg cc "ephemeral_1h_input_tokens"
                 | _ => true)
       | _ => true)
  | _ => true

/-- End-to-end scenario A: the parsed form of
`{"is_error":true,"result":"Claude limit reached|1700000000"}`. -/
def scenarioA : RawLine :=
  .parsed (.obj [("is_error", .bool true), ("result", .str "Claude limit reached|1700000000")])

/-- End-to-end scenario B: the parsed form of
`{"type":"assistant","message":{"content":[{"type":"text","text":"Usage limit reached, resets 3am"}]}}`. -/
def scenarioB : RawLine :=
  .parsed (.obj [("type", .str "assistant"),
    ("message", .obj [("content", .list [.obj [("type", .str "text"),
      ("text", .str "Usage limit reached, resets 3am")]])])])

/-- End-to-end scenario C: the parsed form of
`{"result":"DONE: all tasks complete"}`. -/
def scenarioC : RawLine :=
  .parsed (.obj [("result", .str "DONE: all tasks complete")])

/-- C1: for the scenario-B assistant record carrying `resets 3am`, evaluated
at a current local time of 05:00, claude_loop.py's `rate_limit_reset_epoch`
does not return the epoch of 03:00 the next day: the reset moment is not in
the future, so line 118 executes `reset_today += timedelta(days=1)`, and
since the script imports only `datetime` (line 15) the unbound name
`timedelta` raises `NameError`, which the `except` clause (line 155) does
not catch.  At 01:00 the same record correctly yields today's 03:00 epoch
(day index 20000, i.e. `20000*86400 + 3*3600`), confirming that only the
advance-one-day branch is broken. -/
theorem c1_clock_reset_evaluation :
    ClaudeLoop.rate_limit_reset_epoch scenarioB ⟨20000, 5, 0, 0, 0⟩ = .error .nameError
      ∧ ClaudeLoop.rate_limit_reset_epoch scenarioB ⟨20000, 1, 0, 0, 0⟩ = .ok (some 1728010800) :=
  ⟨rfl, rfl⟩


lemma lookup_imp_any {fs : List (String × PyJson)} {k : String} {v : PyJson}
    (h : fs.lookup k = some v) : fs.any (fun p => p.1 == k) = true := by
  induction fs with
  | nil => simp [List.lookup] at h
  | cons p ps ih =>
      obtain ⟨a, b⟩ := p
      by_cases hk : k = a
      · subst hk
        simp [List.any_cons]
      · have hb : (k == a) = false := beq_false_of_ne hk
        have hb2 : (a == k) = false := beq_false_of_ne (Ne.symm hk)
        rw [List.lookup, hb] at h
        simp only [List.any_cons, hb2, Bool.false_or]
        exact ih h

lemma dropWhile_head_false (p : Char → Bool) :
    ∀ (l : List Char) (c : Char) (cs : List Char), l.dropWhile p = c :: cs → p c = false := by
  intro l
  induction l with
  | nil => intro c cs h; simp [List.dropWhile] at h
  | cons a as ih =>
      intro c cs h
      by_cases hp : p a
      · rw [List.dropWhile_cons, if_pos hp] at h
        exact ih c cs h
      · rw [List.dropWhile_cons, if_neg hp] at h
        cases h
        simpa using hp

lemma dropWhile_idem (p : Char → Bool) (l : List Char) :
    (l.dropWhile p).dropWhile p = l.dropWhile p := by
  cases h : l.dropWhile p with
  | nil => simp
  | cons c cs =>
      have hc := dropWhile_head_false p l c cs h
      simp [List.dropWhile_cons, hc]

lemma dropWhile_eq_self_head (p : Char → Bool) (c : Char) (cs : List Char)
    (h : (c :: cs).dropWhile p = c :: cs) : p c = false := by
  by_cases hp : p c
  · rw [List.dropWhile_cons, if_pos hp] at h
    have hlen : (cs.dropWhile p).length ≤ cs.length := (List.dropWhile_sublist p (l := cs)).length_le
    have := congrArg List.length h
    simp at this
    omega
  · simpa using hp

lemma rstrip_head (p : Char → Bool) (x : List Char) (c : Char) (cs : List Char)
    (h : (x.reverse.dropWhile p).reverse = c :: cs) : ∃ rest, x = c :: rest := by
  have hdecomp : x.reverse.takeWhile p ++ x.reverse.dropWhile p = x.reverse :=
    List.takeWhile_append_dropWhile p x.reverse
  have hx : x = (x.reverse.dropWhile p).reverse ++ (x.reverse.takeWhile p).reverse := by
    have := congrArg List.reverse hdecomp
    rw [List.reverse_append, List.reverse_reverse] at this
    exact this.symm
  rw [h] at hx
  exact ⟨cs ++ (x.reverse.takeWhile p).reverse, by simpa using hx⟩

lemma strip_aux (x : List Char) (hx : x.dropWhile isWs = x) :
    stripWs ((x.reverse.dropWhile isWs).reverse) = (x.reverse.dropWhile isWs).reverse := by
  unfold stripWs
  have h1 : ((x.reverse.dropWhile isWs).reverse).dropWhile isWs
      = (x.reverse.dropWhile isWs).reverse := by
    cases hy : (x.reverse.dropWhile isWs).reverse with
    | nil => simp
    | cons c cs =>
        obtain ⟨rest, hrest⟩ := rstrip_head isWs x c cs hy
        have hc : isWs c = false := by
          apply dropWhile_eq_self_head isWs c rest
          rw [← hrest]
          exact hx
        simp [List.dropWhile_cons, hc]
  rw [h1, List.reverse_reverse, dropWhile_idem]

lemma stripWs_stripWs (l : List Char) : stripWs (stripWs l) = stripWs l := by
  have hx : (l.dropWhile isWs).dropWhile isWs = l.dropWhile isWs := dropWhile_idem _ _
  have h := strip_aux (l.dropWhile isWs) hx
  simpa [stripWs] using h

lemma pyInt_stripWs (l : List Char) : pyInt (stripWs l) = pyInt l := by
  unfold pyInt
  rw [stripWs_stripWs]

lemma lastSpaceIdx?_lt_length : ∀ (l : List Char) (i : Nat),
    lastSpaceIdx? l = some i → i < l.length := by
  intro l
  induction l with
  | nil => intro i h; simp [lastSpaceIdx?] at h
  | cons c cs ih =>
      intro i h
      rw [lastSpaceIdx?] at h
      cases hcs : lastSpaceIdx? cs with
      | some j =>
          rw [hcs] at h
          cases h
          have := ih j hcs
          simp only [List.length_cons]
          omega
      | none =>
          rw [hcs] at h
          by_cases hc : c = ' '
          · rw [if_pos hc] at h
            cases h
            simp
          · rw [if_neg hc] at h
            cases h

lemma lastSpaceIdx?_get : ∀ (l : List Char) (i : Nat),
    lastSpaceIdx? l = some i → l.get? i = some ' ' := by
  intro l
  induction l with
  | nil => intro i h; simp [lastSpaceIdx?] at h
  | cons c cs ih =>
      intro i h
      rw [lastSpaceIdx?] at h
      cases hcs : lastSpaceIdx? cs with
      | some j =>
          rw [hcs] at h
          cases h
          simpa using ih j hcs
      | none =>
          rw [hcs] at h
          by_cases hc : c = ' '
          · rw [if_pos hc] at h
            cases h
            simp [hc]
          · rw [if_neg hc] at h
            cases h

lemma lastSpaceIdx?_none : ∀ (l : List Char), lastSpaceIdx? l = none →
    ∀ j, l.get? j ≠ some ' ' := by
  intro l
  induction l with
  | nil => intro h j; simp
  | cons c cs ih =>
      intro h j
      rw [lastSpaceIdx?] at h
      cases hcs : lastSpaceIdx? cs with
      | some j₀ =>
          rw [hcs] at h
          cases h
      | none =>
          rw [hcs] at h
          by_cases hc : c = ' '
          · rw [if_pos hc] at h
            cases h
          · cases j with
            | zero =>
                simp only [List.get?_cons_zero]
                intro he
                exact hc (Option.some.inj he)
            | succ j' =>
                simpa using ih hcs j'

lemma lastSpaceIdx?_last : ∀ (l : List Char) (i : Nat), lastSpaceIdx? l = some i →
    ∀ j, i < j → l.get? j ≠ some ' ' := by
  intro l
  induction l with
  | nil => intro i h; simp [lastSpaceIdx?] at h
  | cons c cs ih =>
      intro i h j hj
      rw [lastSpaceIdx?] at h
      cases hcs : lastSpaceIdx? cs with
      | some j₀ =>
          rw [hcs] at h
          cases h
          cases j with
          | zero => omega
          | succ j' => simpa using ih j₀ hcs j' (by omega)
      | none =>
          rw [hcs] at h
          by_cases hc : c = ' '
          · rw [if_pos hc] at h
            cases h
            cases j with
            | zero => omega
            | succ j' => simpa using lastSpaceIdx?_none cs hcs j'
          · rw [if_neg hc] at h
            cases h

/-- C4 counterexample: for the 121-character text of 100 `a`s, one space and
20 `b`s, the last space of the 120-character window sits exactly at offset
100 — i.e. at, not after, offset 100, inside the last 20 characters of the
window — yet the code's `last_space > 100` test fails, so the displayed
text keeps the full 120-character window instead of cutting at that
space as the claim requires. -/
theorem c4_counterexample :
    rfindSpace ((List.replicate 100 'a' ++ ' ' :: List.replicate 20 'b').take 120) = 100
      ∧ ClaudeLoop.smart_truncate (List.replicate 100 'a' ++ ' ' :: List.replicate 20 'b')
        = (List.replicate 100 'a' ++ ' ' :: List.replicate 19 'b') ++ "...".toList
      ∧ ClaudeLoop.smart_truncate (List.replicate 100 'a' ++ ' ' :: List.replicate 20 'b')
        ≠ List.replicate 100 'a' ++ "...".toList :=
  ⟨by decide, by decide, by decide⟩

/-- C4 (amended): text of at most 120 characters is displayed unmodified;
longer text is displayed as a prefix of at most 120 original characters
plus the 3-character ellipsis, and the cut is placed at the last space of
the 120-character window whenever that space occurs strictly after offset
100 (equivalently, within the last 19 characters of the window). -/
theorem c4_truncation_amended (text : List Char) :
    (text.length ≤ 120 → ClaudeLoop.smart_truncate text = text)
    ∧ (120 < text.length →
        ∃ k, k ≤ 120
          ∧ ClaudeLoop.smart_truncate text = text.take k ++ "...".toList
          ∧ (ClaudeLoop.smart_truncate text).length ≤ 123
          ∧ (100 < rfindSpace (text.take 120) →
              (k : Int) = rfindSpace (text.take 120)
                ∧ text.get? k = some ' '
                ∧ ∀ j, k < j → j < 120 → text.get? j ≠ some ' ')) := by
  constructor
  · intro h
    unfold ClaudeLoop.smart_truncate
    rw [if_neg (by omega)]
  · intro h
    unfold ClaudeLoop.smart_truncate
    rw [if_pos h]
    by_cases hls : 100 < rfindSpace (text.take 120)
    · cases hlsi : lastSpaceIdx? (text.take 120) with
      | none =>
          rw [rfindSpace, hlsi] at hls
          simp at hls
      | some i =>
          have hrf : rfindSpace (text.take 120) = (i : Int) := by
            rw [rfindSpace, hlsi]
          have hi100 : 100 < i := by
            rw [hrf] at hls
            omega
          have hilen : i < 120 := by
            have h1 := lastSpaceIdx?_lt_length (text.take 120) i hlsi
            have h2 : (text.take 120).length = 120 := by
              rw [List.length_take]
              omega
            omega
          rw [if_pos hls, hrf]
          simp only [Int.toNat_natCast]
          refine ⟨i, by omega, ?_, ?_, ?_⟩
          · rw [List.take_take, min_eq_left (le_of_lt hilen)]
          · have h1 : ((text.take 120).take i).length ≤ 120 := by
              rw [List.length_take]
              omega
            rw [List.length_append]
            have h2 : ("...".toList).length = 3 := by decide
            omega
          · intro _
            refine ⟨rfl, ?_, ?_⟩
            · have hg := lastSpaceIdx?_get (text.take 120) i hlsi
              rwa [List.get?_take hilen] at hg
            · intro j hij hj120
              have hg := lastSpaceIdx?_last (text.take 120) i hlsi j hij
              rwa [List.get?_take hj120] at hg
    · rw [if_neg hls]
      refine ⟨120, le_refl 120, rfl, ?_, fun hc => absurd hc hls⟩
      have h1 : (text.take 120).length ≤ 120 := by
        rw [List.length_take]
        omega
      rw [List.length_append]
      have h2 : ("...".toList).length = 3 := by decide
      omega

/-- Witness for `c4_truncation_amended`: applying it to a short text shows
the text is displayed unmodified. -/
theorem c4_truncation_amended_witness :
    ClaudeLoop.smart_truncate "hello world".toList = "hello world".toList :=
  (c4_truncation_amended "hello world".toList).1 (by decide)

/-- C5: for every record with a string `result`, prefix-mode completion
(`is_done`, sentinel `DONE`) holds exactly when the trimmed upper-cased
result starts with the sentinel, and containment-mode completion
(`is_actually_working`, sentinel `ACTUALLY_WORKING`) holds exactly when the
sentinel occurs anywhere in the trimmed upper-cased result — both therefore
case-insensitive and insensitive to surrounding whitespace; scenario C
(`{"result":"DONE: all tasks complete"}`) is accepted by the former and
rejected by the latter. -/
theorem c5_completion_detection :
    (∀ (fields : List (String × PyJson)) (r : String),
        fields.lookup "result" = some (.str r) →
        Maker.is_done (.parsed (.obj fields))
          = .ok (startsWithList (upperList (stripWs r.toList)) "DONE".toList))
    ∧ (∀ (fields : List (String × PyJson)) (r : String),
        fields.lookup "result" = some (.str r) →
        Fixer.is_actually_working (.parsed (.obj fields))
          = .ok (containsSub "ACTUALLY_WORKING".toList (upperList (stripWs r.toList))))
    ∧ Maker.is_done scenarioC = .ok true
    ∧ Fixer.is_actually_working scenarioC = .ok false := by
  refine ⟨?_, ?_, rfl, rfl⟩
  · intro fields r h
    have hany := lookup_imp_any h
    simp [Maker.is_done, Maker.isDoneBody, pyContainsKey, pySubscript, hany, h]
  · intro fields r h
    have hany := lookup_imp_any h
    simp [Fixer.is_actually_working, Fixer.isWorkingBody, pyContainsKey, pySubscript, hany, h]

/-- Witness for `c5_completion_detection`: its first component applied to
the scenario-C record computes `is_done` from the trimmed upper-cased
result. -/
theorem c5_completion_detection_witness :
    Maker.is_done (.parsed (.obj [("result", PyJson.str "DONE: all tasks complete")]))
      = .ok (startsWithList (upperList (stripWs "DONE: all tasks complete".toList))
          "DONE".toList) :=
  c5_completion_detection.1 [("result", PyJson.str "DONE: all tasks complete")]
    "DONE: all tasks complete" rfl

/-- C3: for every error record whose string result matches the rate-limit
phrase and contains a pipe, with the substring after the first pipe parsing
as a decimal integer, the maker/fixer detector returns exactly that
integer; the claude_loop variant does the same when additionally no
`resets <H>am/pm` clock pattern is present; in particular scenario A
returns 1700000000. -/
theorem c3_pipe_epoch :
    (∀ (fields : List (String × PyJson)) (r : String) (n : Int),
        pyTruthy ((fields.lookup "is_error").getD .null) = true →
        fields.lookup "result" = some (.str r) →
        rateLimitMsgFixer r.toList = true →
        containsPipe r.toList = true →
        pyInt (afterFirstPipe r.toList) = some n →
        Fixer.rate_limit_reset_epoch (.parsed (.obj fields)) = .ok (some n))
    ∧ (∀ (fields : List (String × PyJson)) (r : String) (n : Int) (now : PyDateTime),
        pyTruthy ((fields.lookup "is_error").getD .null) = true →
        fields.lookup "result" = some (.str r) →
        searchLimitReached r.toList = true →
        searchReset r.toList = none →
        containsPipe r.toList = true →
        pyInt (afterFirstPipe r.toList) = some n →
        ClaudeLoop.rate_limit_reset_epoch (.parsed (.obj fields)) now = .ok (some n))
    ∧ Fixer.rate_limit_reset_epoch scenarioA = .ok (some 1700000000) := by
  refine ⟨?_, ?_, rfl⟩
  · intro fields r n hie hres hmsg hpipe hint
    have hany := lookup_imp_any hres
    simp only [String.toList] at hmsg hpipe hint
    simp [Fixer.rate_limit_reset_epoch, Maker.rate_limit_reset_epoch, Maker.rlreBody,
      pyGetAttr, pyContainsKey, pySubscript, hie, hany, hres, hmsg, hpipe, hint]
  · intro fields r n now hie hres hmsg hreset hpipe hint
    have hany := lookup_imp_any hres
    simp only [String.toList] at hmsg hreset hpipe hint
    simp [ClaudeLoop.rate_limit_reset_epoch, ClaudeLoop.rlreBody, pyGetAttr, pyContainsKey,
      pySubscript, hie, hany, hres, hmsg, hreset, hpipe, pyInt_stripWs, hint]

/-- Witness for `c3_pipe_epoch`: its first component applied to the
scenario-A record yields the pipe-delimited epoch. -/
theorem c3_pipe_epoch_witness :
    Fixer.rate_limit_reset_epoch (.parsed (.obj [("is_error", PyJson.bool true),
        ("result", PyJson.str "Claude limit reached|1700000000")])) = .ok (some 1700000000) :=
  c3_pipe_epoch.1
    [("is_error", PyJson.bool true), ("result", PyJson.str "Claude limit reached|1700000000")]
    "Claude limit reached|1700000000" 1700000000
    (by decide) rfl (by decide) (by decide) (by decide)

lemma stepAdd_good (u : List (String × PyJson)) (k : String) (cur : Int)
    (h : intOrAbsent u k = true) : stepAdd cur (.obj u) k = .ok (cur + intAt u k) := by
  unfold intOrAbsent at h
  unfold stepAdd pyGetAttr intAt
  cases hu : u.lookup k with
  | none => simp [hu, addTok]
  | some v =>
      rw [hu] at h
      cases v <;> simp_all [addTok]

lemma parseUsageSteps_good (st : StatsTracker) (fields u cc : List (String × PyJson))
    (hu : (fields.lookup "usage").getD (.obj []) = PyJson.obj u)
    (hcc : (u.lookup "cache_creation").getD (.obj []) = PyJson.obj cc)
    (h1 : intOrAbsent u "input_tokens" = true)
    (h2 : intOrAbsent u "output_tokens" = true)
    (h3 : intOrAbsent u "cache_read_input_tokens" = true)
    (h4 : intOrAbsent cc "ephemeral_5m_input_tokens" = true)
    (h5 : intOrAbsent cc "ephemeral_1h_input_tokens" = true) :
    StatsTracker.parseUsageSteps st (.obj fields) =
      ({ st with
          total_input_tokens := st.total_input_tokens + intAt u "input_tokens",
          total_output_tokens := st.total_output_tokens + intAt u "output_tokens",
          total_cache_read_tokens :=
            st.total_cache_read_tokens + intAt u "cache_read_input_tokens",
          total_cache_write_tokens := st.total_cache_write_tokens
            + intAt cc "ephemeral_5m_input_tokens"
            + intAt cc "ephemeral_1h_input_tokens" }, none) := by
  simp [StatsTracker.parseUsageSteps, pyGetAttr, hu, hcc, stepAdd_good, h1, h2, h3, h4, h5]

lemma parse_usage_good (st : StatsTracker) (r : RawLine) (h : goodRecord r = true) :
    StatsTracker.parse_usage_from_json st r =
      ({ st with
          total_input_tokens := st.total_input_tokens + recIn r,
          total_output_tokens := st.total_output_tokens + recOut r,
          total_cache_read_tokens := st.total_cache_read_tokens + recCR r,
          total_cache_write_tokens := st.total_cache_write_tokens + recCW r }, none) := by
  cases r with
  | empty => simp [goodRecord] at h
  | malformed => simp [goodRecord] at h
  | parsed data =>
      cases data with
      | null => simp [goodRecord] at h
      | bool b => simp [goodRecord] at h
      | int n => simp [goodRecord] at h
      | str s => simp [goodRecord] at h
      | list xs => simp [goodRecord] at h
      | obj fields =>
          simp only [goodRecord] at h
          simp only [StatsTracker.parse_usage_from_json]
          cases hu : fields.lookup "usage" with
          | none =>
              rw [hu] at h
              rw [parseUsageSteps_good st fields [] []
                (by rw [hu]; rfl) rfl rfl rfl rfl rfl rfl]
              simp [recIn, recOut, recCR, recCW, usageOf, ccOf, hu, intAt]
          | some v =>
              rw [hu] at h
              cases v with
              | null => simp at h
              | bool b => simp at h
              | int n => simp at h
              | str s => simp at h
              | list xs => simp at h
              | obj u =>
                  simp only [goodUsageObj, Bool.and_eq_true] at h
                  obtain ⟨⟨⟨h1, h2⟩, h3⟩, h4⟩ := h
                  cases hcc : u.lookup "cache_creation" with
                  | none =>
                      rw [parseUsageSteps_good st fields u []
                        (by rw [hu]; rfl) (by rw [hcc]; rfl) h1 h2 h3 rfl rfl]
                      simp [recIn, recOut, recCR, recCW, usageOf, ccOf, hu, hcc]
                      omega
                  | some w =>
                      rw [hcc] at h4
                      cases w with
                      | null => simp at h4
                      | bool b => simp at h4
                      | int n => simp at h4
                      | str s => simp at h4
                      | list xs => simp at h4
                      | obj cc =>
                          simp only [Bool.and_eq_true] at h4
                          obtain ⟨h4a, h4b⟩ := h4
                          rw [parseUsageSteps_good st fields u cc
                            (by rw [hu]; rfl) (by rw [hcc]; rfl) h1 h2 h3 h4a h4b]
                          simp [recIn, recOut, recCR, recCW, usageOf, ccOf, hu, hcc]
                          omega

/-- C2 counterexample: on the record `{"usage": null}` — a line whose usage
field is null — `parse_usage_from_json` does not act as a no-op: it
propagates an `AttributeError` (from `None.get`), which the `except`
clause, listing only `JSONDecodeError`, `ValueError` and `KeyError`, does
not catch. -/
theorem c2_counterexample :
    (StatsTracker.parse_usage_from_json .init (.parsed (.obj [("usage", PyJson.null)]))).snd
      = some .attributeError := rfl

/-- C2 (amended): `parse_usage_from_json` returns normally — as a no-op for
unusable input — on the empty line, on malformed JSON, and on every record
parsing to a JSON object whose usage field is absent or is an object with
integer (or absent) token fields; records whose usage is null or another
non-object, whose top-level value is not an object, or whose token counts
are not integers can instead propagate an uncaught exception. -/
theorem c2_no_raise_amended (st : StatsTracker) (raw : RawLine)
    (h : usageWellBehaved raw = true) :
    (StatsTracker.parse_usage_from_json st raw).snd = none := by
  cases raw with
  | empty => rfl
  | malformed => rfl
  | parsed data =>
      have hg : goodRecord (.parsed data) = true := h
      rw [parse_usage_good st _ hg]

/-- Witness for `c2_no_raise_amended` on a concrete well-shaped usage
record. -/
theorem c2_no_raise_amended_witness :
    (StatsTracker.parse_usage_from_json .init
        (.parsed (.obj [("usage", PyJson.obj [("input_tokens", PyJson.int 5)])]))).snd
      = none :=
  c2_no_raise_amended .init
    (.parsed (.obj [("usage", PyJson.obj [("input_tokens", PyJson.int 5)])])) (by decide)

lemma stepAdd_mono (u : List (String × PyJson)) (k : String) (cur w : Int)
    (hnn : fieldNonNeg u k = true) (h : stepAdd cur (.obj u) k = .ok w) : cur ≤ w := by
  unfold fieldNonNeg at hnn
  simp only [stepAdd, pyGetAttr] at h
  cases hu : u.lookup k with
  | none =>
      rw [hu] at h
      simp [addTok] at h
      omega
  | some v =>
      rw [hu] at h hnn
      cases v with
      | int n =>
          simp [addTok] at h
          simp at hnn
          omega
      | bool b =>
          simp [addTok] at h
          cases b <;> omega
      | null => simp [addTok] at h
      | str s => simp [addTok] at h
      | list xs => simp [addTok] at h
      | obj fs => simp [addTok] at h

lemma parseUsageSteps_mono (st : StatsTracker) (data : PyJson)
    (hnn : nonNegTokens (.parsed data) = true) :
    st.total_input_tokens ≤ (StatsTracker.parseUsageSteps st data).fst.total_input_tokens
    ∧ st.total_output_tokens ≤ (StatsTracker.parseUsageSteps st data).fst.total_output_tokens
    ∧ st.total_cache_read_tokens
        ≤ (StatsTracker.parseUsageSteps st data).fst.total_cache_read_tokens
    ∧ st.total_cache_write_tokens
        ≤ (StatsTracker.parseUsageSteps st data).fst.total_cache_write_tokens := by
  cases data with
  | null => simp [StatsTracker.parseUsageSteps, pyGetAttr]
  | bool b => simp [StatsTracker.parseUsageSteps, pyGetAttr]
  | int n => simp [StatsTracker.parseUsageSteps, pyGetAttr]
  | str s => simp [StatsTracker.parseUsageSteps, pyGetAttr]
  | list xs => simp [StatsTracker.parseUsageSteps, pyGetAttr]
  | obj fields =>
      simp only [nonNegTokens] at hnn
      simp only [StatsTracker.parseUsageSteps, pyGetAttr]
      cases hu : fields.lookup "usage" with
      | none => simp [stepAdd, pyGetAttr, addTok]
      | some v =>
          rw [hu] at hnn
          cases v with
          | null => simp [stepAdd, pyGetAttr]
          | bool b => simp [stepAdd, pyGetAttr]
          | int n => simp [stepAdd, pyGetAttr]
          | str s => simp [stepAdd, pyGetAttr]
          | list xs => simp [stepAdd, pyGetAttr]
          | obj u =>
              simp only [Bool.and_eq_true] at hnn
              obtain ⟨⟨⟨hn1, hn2⟩, hn3⟩, hn4⟩ := hnn
              simp only [Option.getD_some]
              cases hs1 : stepAdd st.total_input_tokens (.obj u) "input_tokens" with
              | error e => simp
              | ok a =>
                  have ha := stepAdd_mono u "input_tokens" st.total_input_tokens a hn1 hs1
                  cases hs2 : stepAdd st.total_output_tokens (.obj u) "output_tokens" with
                  | error e => simp [ha]
                  | ok b =>
                      have hb := stepAdd_mono u "output_tokens" st.total_output_tokens b hn2 hs2
                      cases hs3 : stepAdd st.total_cache_read_tokens (.obj u)
                          "cache_read_input_tokens" with
                      | error e => simp [ha, hb]
                      | ok c =>
                          have hc := stepAdd_mono u "cache_read_input_tokens"
                            st.total_cache_read_tokens c hn3 hs3
                          cases hcc : u.lookup "cache_creation" with
                          | none =>
                              simp [ha, hb, hc, stepAdd, pyGetAttr, addTok]
                          | some w =>
                              rw [hcc] at hn4
                              cases w with
                              | obj cc =>
                                  simp only [Bool.and_eq_true] at hn4
                                  obtain ⟨hn4a, hn4b⟩ := hn4
                                  simp only [Option.getD_some]
                                  cases hs4 : stepAdd st.total_cache_write_tokens (.obj cc)
                                      "ephemeral_5m_input_tokens" with
                                  | error e => simp [ha, hb, hc]
                                  | ok d =>
                                      have hd := stepAdd_mono cc "ephemeral_5m_input_tokens"
                                        st.total_cache_write_tokens d hn4a hs4
                                      cases hs5 : stepAdd d (.obj cc)
                                          "ephemeral_1h_input_tokens" with
                                      | error e => simp [hs5, ha, hb, hc, hd]
                                      | ok d2 =>
                                          have hd2 := stepAdd_mono cc
                                            "ephemeral_1h_input_tokens" d d2 hn4b hs5
                                          simp [hs5, ha, hb, hc]
                                          omega
                              | null => simp [ha, hb, hc, stepAdd, pyGetAttr]
                              | bool b2 => simp [ha, hb, hc, stepAdd, pyGetAttr]
                              | int n2 => simp [ha, hb, hc, stepAdd, pyGetAttr]
                              | str s2 => simp [ha, hb, hc, stepAdd, pyGetAttr]
                              | list xs2 => simp [ha, hb, hc, stepAdd, pyGetAttr]

/-- C7 counterexample: the claim quantifies over every input line, but on
the line `{"usage":{"input_tokens":-5}}` the input-token total strictly
decreases — the code adds whatever integer the JSON carries. -/
theorem c7_counterexample :
    (StatsTracker.parse_usage_from_json .init
        (.parsed (.obj [("usage",
          PyJson.obj [("input_tokens", PyJson.int (-5))])]))).fst.total_input_tokens
      < StatsTracker.init.total_input_tokens := by decide

/-- C7 (amended): for every input line whose present integer token fields
are non-negative — as all real usage records are — each call to
`parse_usage_from_json` leaves every one of the four token totals at or
above its previous value, even on lines where an exception escapes
mid-update. -/
theorem c7_monotone_amended (st : StatsTracker) (raw : RawLine)
    (h : nonNegTokens raw = true) :
    st.total_input_tokens
        ≤ (StatsTracker.parse_usage_from_json st raw).fst.total_input_tokens
    ∧ st.total_output_tokens
        ≤ (StatsTracker.parse_usage_from_json st raw).fst.total_output_tokens
    ∧ st.total_cache_read_tokens
        ≤ (StatsTracker.parse_usage_from_json st raw).fst.total_cache_read_tokens
    ∧ st.total_cache_write_tokens
        ≤ (StatsTracker.parse_usage_from_json st raw).fst.total_cache_write_tokens := by
  cases raw with
  | empty => simp [StatsTracker.parse_usage_from_json]
  | malformed => simp [StatsTracker.parse_usage_from_json]
  | parsed data =>
      have hm := parseUsageSteps_mono st data h
      simp only [StatsTracker.parse_usage_from_json]
      cases hps : StatsTracker.parseUsageSteps st data with
      | mk st2 oe =>
          rw [hps] at hm
          cases oe with
          | none => simpa using hm
          | some e =>
              by_cases hc : usageCaught e = true
              · simp only [hc, if_true]
                simpa using hm
              · simp only [hc, if_false]
                simpa using hm

/-- Witness for `c7_monotone_amended` on a concrete non-negative usage
record. -/
theorem c7_monotone_amended_witness :
    StatsTracker.init.total_input_tokens
      ≤ (StatsTracker.parse_usage_from_json .init
          (.parsed (.obj [("usage",
            PyJson.obj [("input_tokens", PyJson.int 7)])]))).fst.total_input_tokens :=
  (c7_monotone_amended .init
    (.parsed (.obj [("usage", PyJson.obj [("input_tokens", PyJson.int 7)])]))
    (by decide)).1

lemma feed_totals (recs : List RawLine) : ∀ (st : StatsTracker),
    (∀ r ∈ recs, goodRecord r = true) →
    feed st recs =
      { st with
          total_input_tokens := st.total_input_tokens + (recs.map recIn).sum,
          total_output_tokens := st.total_output_tokens + (recs.map recOut).sum,
          total_cache_read_tokens := st.total_cache_read_tokens + (recs.map recCR).sum,
          total_cache_write_tokens := st.total_cache_write_tokens + (recs.map recCW).sum } := by
  induction recs with
  | nil => intro st h; simp [feed]
  | cons r rs ih =>
      intro st h
      have hr : goodRecord r = true := h r (by simp)
      have hrs : ∀ x ∈ rs, goodRecord x = true := fun x hx => h x (by simp [hx])
      have hstep : feed st (r :: rs)
          = feed ((StatsTracker.parse_usage_from_json st r).fst) rs := rfl
      rw [hstep, parse_usage_good st r hr]
      rw [ih _ hrs]
      obtain ⟨i, o, cr, cw, it⟩ := st
      simp [StatsTracker.mk.injEq, List.map_cons, List.sum_cons]
      refine ⟨by omega, by omega, by omega, by omega⟩

/-- C6: after feeding any sequence of well-shaped usage records, the four
running totals equal the field-wise sums over the records (absent fields
counting 0, the cache-write total summing the two ephemeral cache-creation
fields), and `calculate_cost` equals the fixed linear function
in/1M*3.00 + out/1M*15.00 + cacheRead/1M*0.30 + cacheWrite/1M*3.75 of
those totals. -/
theorem c6_totals_and_cost (recs : List RawLine)
    (h : ∀ r ∈ recs, goodRecord r = true) :
    (feed StatsTracker.init recs).total_input_tokens = (recs.map recIn).sum
    ∧ (feed StatsTracker.init recs).total_output_tokens = (recs.map recOut).sum
    ∧ (feed StatsTracker.init recs).total_cache_read_tokens = (recs.map recCR).sum
    ∧ (feed StatsTracker.init recs).total_cache_write_tokens = (recs.map recCW).sum
    ∧ StatsTracker.calculate_cost (feed StatsTracker.init recs)
      = (((recs.map recIn).sum : ℚ) / 1000000) * 3
        + (((recs.map recOut).sum : ℚ) / 1000000) * 15
        + (((recs.map recCR).sum : ℚ) / 1000000) * (3 / 10)
        + (((recs.map recCW).sum : ℚ) / 1000000) * (15 / 4) := by
  rw [feed_totals recs StatsTracker.init h]
  simp [StatsTracker.calculate_cost, StatsTracker.init, INPUT_TOKEN_COST, OUTPUT_TOKEN_COST,
    CACHE_READ_TOKEN_COST, CACHE_WRITE_TOKEN_COST]

/-- Witness for `c6_totals_and_cost` on two concrete usage records. -/
theorem c6_totals_and_cost_witness :
    (feed StatsTracker.init
        [.parsed (.obj [("type", PyJson.str "assistant"),
            ("usage", PyJson.obj [("input_tokens", PyJson.int 10),
              ("output_tokens", PyJson.int 20),
              ("cache_read_input_tokens", PyJson.int 30),
              ("cache_creation", PyJson.obj [("ephemeral_5m_input_tokens", PyJson.int 5),
                ("ephemeral_1h_input_tokens", PyJson.int 6)])])]),
          .parsed (.obj [("usage", PyJson.obj [("input_tokens", PyJson.int 1)])])]).total_input_tokens
      = (([.parsed (.obj [("type", PyJson.str "assistant"),
            ("usage", PyJson.obj [("input_tokens", PyJson.int 10),
              ("output_tokens", PyJson.int 20),
              ("cache_read_input_tokens", PyJson.int 30),
              ("cache_creation", PyJson.obj [("ephemeral_5m_input_tokens", PyJson.int 5),
                ("ephemeral_1h_input_tokens", PyJson.int 6)])])]),
          .parsed (.obj [("usage", PyJson.obj [("input_tokens", PyJson.int 1)])])] :
            List RawLine).map recIn).sum :=
  (c6_totals_and_cost
    [.parsed (.obj [("type", PyJson.str "assistant"),
        ("usage", PyJson.obj [("input_tokens", PyJson.int 10),
          ("output_tokens", PyJson.int 20),
          ("cache_read_input_tokens", PyJson.int 30),
          ("cache_creation", PyJson.obj [("ephemeral_5m_input_tokens", PyJson.int 5),
            ("ephemeral_1h_input_tokens", PyJson.int 6)])])]),
      .parsed (.obj [("usage", PyJson.obj [("input_tokens", PyJson.int 1)])])]
    (by decide)).1

lemma is_done_result_eq (fields : List (String × PyJson)) (r : String)
    (h : fields.lookup "result" = some (.str r)) :
    Maker.is_done (.parsed (.obj fields))
      = .ok (startsWithList (upperList (stripWs r.toList)) "DONE".toList) := by
  have hany := lookup_imp_any h
  simp [Maker.is_done, Maker.isDoneBody, pyContainsKey, pySubscript, hany, h]

lemma is_working_result_eq (fields : List (String × PyJson)) (r : String)
    (h : fields.lookup "result" = some (.str r)) :
    Fixer.is_actually_working (.parsed (.obj fields))
      = .ok (containsSub "ACTUALLY_WORKING".toList (upperList (stripWs r.toList))) := by
  have hany := lookup_imp_any h
  simp [Fixer.is_actually_working, Fixer.isWorkingBody, pyContainsKey, pySubscript, hany, h]


/-- C8: whenever the maker iteration tail finishes without stopping, its
last sleep is the fixed 60-second cooldown, executed in addition to — not
instead of — the `max(0, reset_epoch - now)` rate-limit sleep taken when a
reset epoch was detected; the claude_loop tail never stops and behaves the
same way. -/
theorem c8_unconditional_cooldown :
    (∀ (prev : Bool) (last : RawLine) (nowEpoch : Int) (single : Bool) (out : IterOutcome),
        Maker.iterTail prev last nowEpoch single = .ok out →
        out.stops = false →
        out.events.getLast? = some Ev.cooldownSleep
          ∧ (∀ e, Maker.rate_limit_reset_epoch last = .ok (some e) →
              out.events = [Ev.rateSleep (max 0 (e - nowEpoch)), Ev.cooldownSleep])
          ∧ (Maker.rate_limit_reset_epoch last = .ok none →
              out.events = [Ev.cooldownSleep]))
    ∧ (∀ (prev : Bool) (last : RawLine) (nowEpoch : Int) (now : PyDateTime)
          (out : IterOutcome),
        ClaudeLoop.iterTail prev last nowEpoch now = .ok out →
        out.stops = false
          ∧ out.events.getLast? = some Ev.cooldownSleep
          ∧ (∀ e, ClaudeLoop.rate_limit_reset_epoch last now = .ok (some e) →
              out.events = [Ev.rateSleep (max 0 (e - nowEpoch)), Ev.cooldownSleep])) := by
  constructor
  · intro prev last nowEpoch single out hiter hns
    cases hd : Maker.is_done last with
    | error e =>
        have hv : Maker.iterTail prev last nowEpoch single = .error e := by
          simp [Maker.iterTail, hd]
        rw [hv] at hiter
        cases hiter
    | ok b =>
        cases b with
        | true =>
            have hv : Maker.iterTail prev last nowEpoch single = .ok ⟨[], true, false⟩ := by
              simp [Maker.iterTail, hd]
            rw [hv] at hiter
            have hx := Except.ok.inj hiter
            rw [← hx] at hns
            simp at hns
        | false =>
            cases hr : Maker.rate_limit_reset_epoch last with
            | error e2 =>
                have hv : Maker.iterTail prev last nowEpoch single = .error e2 := by
                  simp [Maker.iterTail, hd, hr]
                rw [hv] at hiter
                cases hiter
            | ok oe =>
                cases oe with
                | none =>
                    cases single with
                    | true =>
                        have hv : Maker.iterTail prev last nowEpoch true
                            = .ok ⟨[], true, false⟩ := by
                          simp [Maker.iterTail, hd, hr]
                        rw [hv] at hiter
                        have hx := Except.ok.inj hiter
                        rw [← hx] at hns
                        simp at hns
                    | false =>
                        have hv : Maker.iterTail prev last nowEpoch false
                            = .ok ⟨[Ev.cooldownSleep], false, false⟩ := by
                          simp [Maker.iterTail, hd, hr]
                        rw [hv] at hiter
                        have hx := Except.ok.inj hiter
                        subst hx
                        refine ⟨rfl, ?_, fun _ => rfl⟩
                        intro e he
                        simp at he
                | some e =>
                    cases single with
                    | true =>
                        have hv : Maker.iterTail prev last nowEpoch true
                            = .ok ⟨[Ev.rateSleep (max 0 (e - nowEpoch))], true, true⟩ := by
                          simp [Maker.iterTail, hd, hr]
                        rw [hv] at hiter
                        have hx := Except.ok.inj hiter
                        rw [← hx] at hns
                        simp at hns
                    | false =>
                        have hv : Maker.iterTail prev last nowEpoch false
                            = .ok ⟨[Ev.rateSleep (max 0 (e - nowEpoch)), Ev.cooldownSleep],
                                false, true⟩ := by
                          simp [Maker.iterTail, hd, hr]
                        rw [hv] at hiter
                        have hx := Except.ok.inj hiter
                        subst hx
                        refine ⟨rfl, ?_, ?_⟩
                        · intro e2 he2
                          have h3 := Option.some.inj (Except.ok.inj he2)
                          subst h3
                          rfl
                        · intro hnone
                          simp at hnone
  · intro prev last nowEpoch now out hiter
    cases hr : ClaudeLoop.rate_limit_reset_epoch last now with
    | error e2 =>
        have hv : ClaudeLoop.iterTail prev last nowEpoch now = .error e2 := by
          simp [ClaudeLoop.iterTail, hr]
        rw [hv] at hiter
        cases hiter
    | ok oe =>
        cases oe with
        | none =>
            have hv : ClaudeLoop.iterTail prev last nowEpoch now
                = .ok ⟨[Ev.cooldownSleep], false, false⟩ := by
              simp [ClaudeLoop.iterTail, hr]
            rw [hv] at hiter
            have hx := Except.ok.inj hiter
            subst hx
            refine ⟨rfl, rfl, ?_⟩
            intro e he
            simp at he
        | some e =>
            have hv : ClaudeLoop.iterTail prev last nowEpoch now
                = .ok ⟨[Ev.rateSleep (max 0 (e - nowEpoch)), Ev.cooldownSleep],
                    false, true⟩ := by
              simp [ClaudeLoop.iterTail, hr]
            rw [hv] at hiter
            have hx := Except.ok.inj hiter
            subst hx
            refine ⟨rfl, rfl, ?_⟩
            intro e2 he2
            have h3 := Option.some.inj (Except.ok.inj he2)
            subst h3
            rfl

/-- Witness for `c8_unconditional_cooldown`: the maker tail on scenario A
(rate-limited, not done, not single) ends with the cooldown sleep. -/
theorem c8_unconditional_cooldown_witness :
    ([Ev.rateSleep (max 0 ((1700000000 : Int) - 0)), Ev.cooldownSleep].getLast?
      = some Ev.cooldownSleep) :=
  (c8_unconditional_cooldown.1 false scenarioA 0 false
    ⟨[Ev.rateSleep (max 0 ((1700000000 : Int) - 0)), Ev.cooldownSleep], false, true⟩
    rfl rfl).1

/-- C9: the spawned command contains the `--continue` resume flag exactly
when the resume request is set; the request starts out false (so the first
iteration never carries the flag); the iteration tail ignores the previous
iteration's request — modelling the `continue_next = False` reset executed
before the detector runs — and, in every iteration that does not stop,
hands `continue_next = true` to the next spawn exactly when the
rate-limit detector returned a reset epoch for the log's last line. -/
theorem c9_resume_flag :
    (∀ f : Bool, "--continue" ∈ Maker.claude_cmd f ↔ f = true)
    ∧ Maker.initialContinueNext = false
    ∧ "--continue" ∉ Maker.claude_cmd Maker.initialContinueNext
    ∧ (∀ (p q : Bool) (last : RawLine) (nowEpoch : Int) (single : Bool),
        Maker.iterTail p last nowEpoch single = Maker.iterTail q last nowEpoch single)
    ∧ (∀ (prev : Bool) (last : RawLine) (nowEpoch : Int) (single : Bool)
          (out : IterOutcome),
        Maker.iterTail prev last nowEpoch single = .ok out →
        out.stops = false →
        (out.continueNext = true ↔ ∃ e, Maker.rate_limit_reset_epoch last = .ok (some e))) := by
  refine ⟨?_, rfl, by decide, fun p q last nowEpoch single => rfl, ?_⟩
  · intro f
    cases f
    · simp [Maker.claude_cmd, Maker.PROMPT]
    · simp [Maker.claude_cmd]
  · intro prev last nowEpoch single out hiter hns
    cases hd : Maker.is_done last with
    | error e =>
        have hv : Maker.iterTail prev last nowEpoch single = .error e := by
          simp [Maker.iterTail, hd]
        rw [hv] at hiter
        cases hiter
    | ok b =>
        cases b with
        | true =>
            have hv : Maker.iterTail prev last nowEpoch single = .ok ⟨[], true, false⟩ := by
              simp [Maker.iterTail, hd]
            rw [hv] at hiter
            have hx := Except.ok.inj hiter
            rw [← hx] at hns
            simp at hns
        | false =>
            cases hr : Maker.rate_limit_reset_epoch last with
            | error e2 =>
                have hv : Maker.iterTail prev last nowEpoch single = .error e2 := by
                  simp [Maker.iterTail, hd, hr]
                rw [hv] at hiter
                cases hiter
            | ok oe =>
                cases oe with
                | none =>
                    cases single with
                    | true =>
                        have hv : Maker.iterTail prev last nowEpoch true
                            = .ok ⟨[], true, false⟩ := by
                          simp [Maker.iterTail, hd, hr]
                        rw [hv] at hiter
                        have hx := Except.ok.inj hiter
                        rw [← hx] at hns
                        simp at hns
                    | false =>
                        have hv : Maker.iterTail prev last nowEpoch false
                            = .ok ⟨[Ev.cooldownSleep], false, false⟩ := by
                          simp [Maker.iterTail, hd, hr]
                        rw [hv] at hiter
                        have hx := Except.ok.inj hiter
                        subst hx
                        constructor
                        · intro hcn
                          simp at hcn
                        · rintro ⟨e, he⟩
                          simp at he
                | some e =>
                    cases single with
                    | true =>
                        have hv : Maker.iterTail prev last nowEpoch true
                            = .ok ⟨[Ev.rateSleep (max 0 (e - nowEpoch))], true, true⟩ := by
                          simp [Maker.iterTail, hd, hr]
                        rw [hv] at hiter
                        have hx := Except.ok.inj hiter
                        rw [← hx] at hns
                        simp at hns
                    | false =>
                        have hv : Maker.iterTail prev last nowEpoch false
                            = .ok ⟨[Ev.rateSleep (max 0 (e - nowEpoch)), Ev.cooldownSleep],
                                false, true⟩ := by
                          simp [Maker.iterTail, hd, hr]
                        rw [hv] at hiter
                        have hx := Except.ok.inj hiter
                        subst hx
                        exact ⟨fun _ => ⟨e, rfl⟩, fun _ => rfl⟩

/-- Witness for `c9_resume_flag`: the command built with the resume request
set contains the `--continue` flag. -/
theorem c9_resume_flag_witness : "--continue" ∈ Maker.claude_cmd true :=
  (c9_resume_flag.1 true).mpr rfl

/-- C10: in the maker and fixer supervisors, stopping with success depends
only on the `result` field of the last line: any record with a string
result satisfying the sentinel test is treated as completion regardless of
its `type` field and even when `is_error` is true, and completion is
evaluated before rate-limit detection — a completing iteration stops with
no rate-limit sleep even when the detector would also have found a reset
epoch, as the concrete error record
`{"type":"assistant","is_error":true,"result":"DONE, Claude limit reached|123"}`
shows. -/
theorem c10_completion_only_result :
    (∀ (fields : List (String × PyJson)) (r : String),
        fields.lookup "result" = some (.str r) →
        Maker.is_done (.parsed (.obj fields))
          = .ok (startsWithList (upperList (stripWs r.toList)) "DONE".toList))
    ∧ (∀ (fields : List (String × PyJson)) (r : String),
        fields.lookup "result" = some (.str r) →
        Fixer.is_actually_working (.parsed (.obj fields))
          = .ok (containsSub "ACTUALLY_WORKING".toList (upperList (stripWs r.toList))))
    ∧ (∀ (prev : Bool) (last : RawLine) (nowEpoch : Int) (single : Bool),
        Maker.is_done last = .ok true →
        Maker.iterTail prev last nowEpoch single = .ok ⟨[], true, false⟩)
    ∧ (∀ (prev : Bool) (last : RawLine) (nowEpoch : Int) (single : Bool),
        Fixer.is_actually_working last = .ok true →
        Fixer.iterTail prev last nowEpoch single = .ok ⟨[], true, false⟩)
    ∧ (Maker.is_done (.parsed (.obj [("type", PyJson.str "assistant"),
          ("is_error", PyJson.bool true),
          ("result", PyJson.str "DONE, Claude limit reached|123")])) = .ok true
        ∧ Maker.rate_limit_reset_epoch (.parsed (.obj [("type", PyJson.str "assistant"),
            ("is_error", PyJson.bool true),
            ("result", PyJson.str "DONE, Claude limit reached|123")])) = .ok (some 123)
        ∧ ∀ (prev : Bool) (nowEpoch : Int) (single : Bool),
            Maker.iterTail prev (.parsed (.obj [("type", PyJson.str "assistant"),
                ("is_error", PyJson.bool true),
                ("result", PyJson.str "DONE, Claude limit reached|123")])) nowEpoch single
              = .ok ⟨[], true, false⟩) := by
  refine ⟨is_done_result_eq, is_working_result_eq, ?_, ?_, rfl, rfl,
    fun prev nowEpoch single => rfl⟩
  · intro prev last nowEpoch single hd
    simp [Maker.iterTail, hd]
  · intro prev last nowEpoch single hd
    simp [Fixer.iterTail, hd]

/-- Witness for `c10_completion_only_result`: the maker tail on the
completing error record stops at once with no sleeps. -/
theorem c10_completion_only_result_witness :
    Maker.iterTail false (.parsed (.obj [("type", PyJson.str "assistant"),
        ("is_error", PyJson.bool true),
        ("result", PyJson.str "DONE, Claude limit reached|123")])) 0 false
      = .ok ⟨[], true, false⟩ :=
  c10_completion_only_result.2.2.1 false
    (.parsed (.obj [("type", PyJson.str "assistant"),
      ("is_error", PyJson.bool true),
      ("result", PyJson.str "DONE, Claude limit reached|123")])) 0 false rfl
